import Mathlib

/-!
Verification of the gnartgen state actor (`src/main.rs`, module `state`).

The development shallowly embeds the `state` module: the sqlite-backed
catalog store becomes a list of rows, the fallible SQL layer is made
explicit through an environment outcome parameter, and one iteration of
`State::listen`'s receive loop becomes the function `State.step`.
-/

namespace Gnartgen

/-! ### Decimal representation of natural numbers

`format!("{}", i)` in `State::unique_name` renders the counter in decimal,
which is `Nat.repr` in Lean.  We prove `Nat.repr` injective by exhibiting a
decoder, so that the candidate names `"New Object (i)"` are pairwise
distinct; this is what makes the unbounded search loop in `unique_name`
terminate on a finite name set. -/

/-- Decode a list of decimal digit characters, most significant first,
starting from accumulator `a`. -/
def decValue (a : Nat) (l : List Char) : Nat :=
  l.foldl (fun x c => 10 * x + (c.toNat - 48)) a

lemma decValue_nil (a : Nat) : decValue a [] = a := rfl

lemma decValue_cons (a : Nat) (c : Char) (l : List Char) :
    decValue a (c :: l) = decValue (10 * a + (c.toNat - 48)) l := rfl

lemma dec_digitChar : ∀ r : Nat, r < 10 → (Nat.digitChar r).toNat - 48 = r := by
  decide

lemma toDigitsCore_decValue :
    ∀ (fuel n : Nat), n < fuel → ∃ p : Nat, ∀ (a : Nat) (ds : List Char),
      decValue a (Nat.toDigitsCore 10 fuel n ds) = decValue (a * p + n) ds := by
  intro fuel
  induction fuel with
  | zero => intro n h; omega
  | succ f ih =>
    intro n h
    by_cases h10 : n / 10 = 0
    · refine ⟨10, fun a ds => ?_⟩
      have hn10 : n < 10 := by omega
      have hmod : n % 10 = n := by omega
      simp only [Nat.toDigitsCore, h10, if_true]
      rw [decValue_cons, hmod, dec_digitChar n hn10, Nat.mul_comm]
    · have hge : 10 ≤ n := by omega
      have hlt : n / 10 < f := by omega
      obtain ⟨p, hp⟩ := ih (n / 10) hlt
      refine ⟨p * 10, fun a ds => ?_⟩
      simp only [Nat.toDigitsCore, h10, if_false]
      rw [hp a (Nat.digitChar (n % 10) :: ds), decValue_cons,
        dec_digitChar (n % 10) (by omega)]
      have harith : 10 * (a * p + n / 10) + n % 10 = a * (p * 10) + n := by
        have hmul : a * (p * 10) = 10 * (a * p) := by ring
        rw [hmul]; omega
      rw [harith]

lemma decValue_repr (n : Nat) : decValue 0 (Nat.repr n).data = n := by
  obtain ⟨p, hp⟩ := toDigitsCore_decValue (n + 1) n (Nat.lt_succ_self n)
  have hdata : (Nat.repr n).data = Nat.toDigitsCore 10 (n + 1) n [] := rfl
  rw [hdata, hp 0 [], decValue_nil]
  omega

lemma repr_injective : Function.Injective Nat.repr := by
  intro m n h
  have h2 := congrArg (fun s => decValue 0 (String.data s)) h
  simpa [decValue_repr] using h2

/-! ### The unique-name search (`State::unique_name`)

The Rust loop tries `"New Object (1)"`, `"New Object (2)"`, … against the
set of existing names and returns the first candidate not present.  We model
it with an explicit recursion bounded by `existing.length + 1`; the bound is
never reached (pigeonhole over the injective candidate family), so the model
agrees with the unbounded loop. -/

/-- The candidate name tried at counter value `i`:
`format!("{} ({})", "New Object", i)`. -/
def candidateName (i : Nat) : String :=
  "New Object (" ++ Nat.repr i ++ ")"

lemma candidateName_injective : Function.Injective candidateName := by
  intro i j h
  have hd := congrArg String.data h
  simp only [candidateName, String.data_append] at hd
  have hd2 := List.append_cancel_right hd
  have hd3 := List.append_cancel_left hd2
  have h4 := congrArg (decValue 0) hd3
  rwa [decValue_repr, decValue_repr] at h4

/-- The search loop of `State::unique_name`, with an explicit fuel bound. -/
def uniqueNameFrom (existing : List String) : Nat → Nat → String
  | i, 0 => candidateName i
  | i, fuel + 1 =>
    if candidateName i ∈ existing then uniqueNameFrom existing (i + 1) fuel
    else candidateName i

/-- `State::unique_name`'s pure content: the first `"New Object (i)"`,
`i = 1, 2, …`, that is not among the existing names. -/
def uniqueName (existing : List String) : String :=
  uniqueNameFrom existing 1 (existing.length + 1)

lemma exists_candidate_notMem (existing : List String) (i : Nat) :
    ∃ k, k ≤ existing.length ∧ candidateName (i + k) ∉ existing := by
  by_contra hcon
  push_neg at hcon
  have hsub : (Finset.range (existing.length + 1)).image
      (fun k => candidateName (i + k)) ⊆ existing.toFinset := by
    intro x hx
    simp only [Finset.mem_image, Finset.mem_range] at hx
    obtain ⟨k, hk, rfl⟩ := hx
    exact List.mem_toFinset.mpr (hcon k (by omega))
  have hcard : ((Finset.range (existing.length + 1)).image
      (fun k => candidateName (i + k))).card = existing.length + 1 := by
    rw [Finset.card_image_of_injOn, Finset.card_range]
    intro a _ b _ hab
    have := candidateName_injective hab
    omega
  have h1 := Finset.card_le_card hsub
  have h2 := existing.toFinset_card_le
  omega

lemma uniqueNameFrom_spec (existing : List String) :
    ∀ (fuel i : Nat), (∃ k, k < fuel ∧ candidateName (i + k) ∉ existing) →
      ∃ k, k < fuel ∧ uniqueNameFrom existing i fuel = candidateName (i + k) ∧
        candidateName (i + k) ∉ existing ∧
        ∀ m, m < k → candidateName (i + m) ∈ existing := by
  intro fuel
  induction fuel with
  | zero => intro i h; obtain ⟨k, hk, _⟩ := h; omega
  | succ f ih =>
    intro i h
    by_cases hmem : candidateName i ∈ existing
    · obtain ⟨k, hk, hfree⟩ := h
      have hkpos : k ≠ 0 := by
        intro h0; rw [h0, Nat.add_zero] at hfree; exact hfree hmem
      obtain ⟨k', rfl⟩ : ∃ k', k = k' + 1 := ⟨k - 1, by omega⟩
      have hstep : ∃ k, k < f ∧ candidateName (i + 1 + k) ∉ existing :=
        ⟨k', by omega, by rw [show i + 1 + k' = i + (k' + 1) by omega]; exact hfree⟩
      obtain ⟨k'', hk'', heq, hfree'', hall⟩ := ih (i + 1) hstep
      refine ⟨k'' + 1, by omega, ?_, ?_, ?_⟩
      · simp only [uniqueNameFrom, hmem, if_true]
        rw [heq]; congr 1; omega
      · rw [show i + (k'' + 1) = i + 1 + k'' by omega]; exact hfree''
      · intro m hm
        cases m with
        | zero => rw [Nat.add_zero]; exact hmem
        | succ m' =>
          rw [show i + (m' + 1) = i + 1 + m' by omega]
          exact hall m' (by omega)
    · exact ⟨0, by omega, by simp [uniqueNameFrom, hmem], by rwa [Nat.add_zero],
        fun m hm => by omega⟩

lemma uniqueName_spec (existing : List String) :
    ∃ i, 1 ≤ i ∧ uniqueName existing = candidateName i ∧
      candidateName i ∉ existing ∧
      ∀ j, 1 ≤ j → j < i → candidateName j ∈ existing := by
  obtain ⟨k, hk, hfree⟩ := exists_candidate_notMem existing 1
  obtain ⟨k', hk', heq, hfree', hall⟩ :=
    uniqueNameFrom_spec existing (existing.length + 1) 1 ⟨k, by omega, hfree⟩
  refine ⟨1 + k', by omega, heq, hfree', ?_⟩
  intro j hj1 hj2
  have := hall (j - 1) (by omega)
  rwa [show 1 + (j - 1) = j by omega] at this

/-! ### The catalog store

Rows of the sqlite `objects` table and the SQL statements issued against it
by the `state` module. -/

/-- Modelled from the spec: the schema script `data/schema.sqlite` is not
under `src/`; per the spec the `objects` table has columns `id` (integer,
primary, autoincrement), `name` (text), `description` (text, nullable) and
`source` (text), with `source` defaulting to empty when absent.  This is a
row of that table. -/
structure Obj where
  id : Int
  name : String
  description : Option String
  source : String
  deriving DecidableEq

/-- The live sqlite database: the rows of `objects` in rowid order, plus the
next rowid to be assigned (autoincrement, starting at 1 on a fresh store). -/
structure Store where
  objects : List Obj
  nextId : Int
  deriving DecidableEq

/-- A fresh, schema-initialized, empty store (`new_project`,
`Connection::open_in_memory` plus the schema script). -/
def emptyStore : Store :=
  { objects := [], nextId := 1 }

/-- `select name from objects` collected into the name set of
`State::unique_name` (membership in the list equals membership in the
`HashSet`). -/
def Store.names (db : Store) : List String :=
  db.objects.map (fun o => o.name)

/-- `insert into objects(name, description) values (?1, ?2)` followed by
`last_insert_rowid`: appends a row with the defaulted empty source and
returns the assigned id. -/
def Store.insertObj (db : Store) (name : String) (descr : Option String) :
    Store × Int :=
  ({ objects := db.objects ++
      [{ id := db.nextId, name := name, description := descr, source := "" }],
     nextId := db.nextId + 1 }, db.nextId)

/-- `update objects set name = ?2 where id = ?1`: rewrites every row whose
id matches; succeeds even when no row matches (zero rows affected). -/
def Store.updateNameRow (db : Store) (id : Int) (v : String) : Store :=
  { db with objects :=
      db.objects.map (fun o => if o.id = id then { o with name := v } else o) }

/-- `update objects set source = ?2 where id = ?1`. -/
def Store.updateSourceRow (db : Store) (id : Int) (v : String) : Store :=
  { db with objects :=
      db.objects.map (fun o => if o.id = id then { o with source := v } else o) }

/-- `update objects set description = ?2 where id = ?1` (the bound value is
a `&String`, hence never NULL). -/
def Store.updateDescriptionRow (db : Store) (id : Int) (v : String) : Store :=
  { db with objects :=
      db.objects.map (fun o => if o.id = id then { o with description := some v } else o) }

/-- `select id from objects where name = ?1` via `query_row`: the first
matching row, or no row at all. -/
def Store.findIdByName (db : Store) (name : String) : Option Int :=
  (db.objects.find? (fun o => o.name == name)).map (fun o => o.id)

/-- `select source from objects where id = ?1` via `query_row`. -/
def Store.readSourceRow (db : Store) (id : Int) : Option String :=
  (db.objects.find? (fun o => o.id == id)).map (fun o => o.source)

/-! ### The fallible SQL layer -/

/-- SQL-level failures (`rusqlite::Error`) as the state actor distinguishes
them: an environment failure (I/O, format), or a query that returned no
rows. -/
inductive SqlErr where
  | ioFailure
  | noRows
  deriving DecidableEq

/-- The error enum of `src/main.rs`. -/
inductive Err where
  | SQL (e : SqlErr)
  | User (msg : String)
  deriving DecidableEq

/-- Whether the environment (file system, sqlite engine) lets the SQL
statements of the current command succeed.  `fail` makes the command's
store interaction return an SQL error. -/
inductive EnvOutcome where
  | ok
  | fail
  deriving DecidableEq

/-- Modelled from the spec: the schema script's content is not under
`src/`; the spec declares the initialization script idempotent, so
`Connection::open` plus `execute_batch(SCHEMA)` (`open_file`) either yields
the loaded, schema-initialized store for a path with its contents
unchanged, or fails. -/
def FileSys := String → Option Store

/-! ### The state actor -/

/-- `state::State`: the open-file marker, the owned connection, and the
selection cursor. -/
structure State where
  open_file : Option String
  conn : Store
  active_object : Option Int
  deriving DecidableEq

/-- `state::Msg`: the inbound command enum. -/
inductive Msg where
  | Open (path : String)
  | NewItem
  | StoreCode (text : String)
  | SetActiveObject (obj : String)
  | SelectItem (id : Int)
  | SetDescription (text : String)
  | SetName (name : String)
  deriving DecidableEq

/-- `ui::ItemInfo` (the `thumbnail` field is always unit in the source). -/
structure ItemInfo where
  id : Int
  name : String
  description : Option String
  thumbnail : Unit
  deriving DecidableEq

/-- `ui::Msg`: the outbound notification enum. -/
inductive UiMsg where
  | SetFilename (path : String)
  | ClearItems
  | NewItem (info : ItemInfo)
  | SetSource (text : String)
  deriving DecidableEq

/-- `State::new`: fresh in-memory store, no open file, no cursor. -/
def State.new : State :=
  { open_file := none, conn := emptyStore, active_object := none }

/-- `State::open`: load the file at `path` and replace the connection;
on failure the state is untouched (the success-only `log::info!` is not an
error log and is not modelled). -/
def State.openPath (fs : FileSys) (s : State) (path : String) :
    Except Err State :=
  match fs path with
  | none => .error (.SQL .ioFailure)
  | some conn => .ok { s with conn := conn }

/-- `State::unique_name`: query the name set, then search for the first
free candidate.  The prepare/query can fail at the SQL level. -/
def State.unique_name (s : State) (env : EnvOutcome) : Except Err String :=
  match env with
  | .fail => .error (.SQL .ioFailure)
  | .ok => .ok (uniqueName s.conn.names)

/-- `State::insert_new`. -/
def State.insert_new (s : State) (env : EnvOutcome) (name : String)
    (description : Option String) : Except Err (State × Int) :=
  match env with
  | .fail => .error (.SQL .ioFailure)
  | .ok =>
    let r := s.conn.insertObj name description
    .ok ({ s with conn := r.1 }, r.2)

/-- `State::update_name`: the cursor is read first (`ok_or(Error::User …)`),
then the update statement runs. -/
def State.update_name (s : State) (env : EnvOutcome) (name : String) :
    Except Err State :=
  match s.active_object with
  | none => .error (.User ("No object selected."))
  | some id =>
    match env with
    | .fail => .error (.SQL .ioFailure)
    | .ok => .ok { s with conn := s.conn.updateNameRow id name }

/-- `State::update_source`. -/
def State.update_source (s : State) (env : EnvOutcome) (source : String) :
    Except Err State :=
  match s.active_object with
  | none => .error (.User ("No object selected."))
  | some id =>
    match env with
    | .fail => .error (.SQL .ioFailure)
    | .ok => .ok { s with conn := s.conn.updateSourceRow id source }

/-- `State::update_description`. -/
def State.update_description (s : State) (env : EnvOutcome) (descr : String) :
    Except Err State :=
  match s.active_object with
  | none => .error (.User ("No object selected."))
  | some id =>
    match env with
    | .fail => .error (.SQL .ioFailure)
    | .ok => .ok { s with conn := s.conn.updateDescriptionRow id descr }

/-- `State::select_by_name`: prepare can fail at the SQL level, `query_row`
fails with `QueryReturnedNoRows` when no name matches; the cursor is set
only on success. -/
def State.select_by_name (s : State) (env : EnvOutcome) (name : String) :
    Except Err State :=
  match env with
  | .fail => .error (.SQL .ioFailure)
  | .ok =>
    match s.conn.findIdByName name with
    | none => .error (.SQL .noRows)
    | some id => .ok { s with active_object := some id }

/-- `State::read_source`. -/
def State.read_source (s : State) (env : EnvOutcome) (id : Int) :
    Except Err String :=
  match env with
  | .fail => .error (.SQL .ioFailure)
  | .ok =>
    match s.conn.readSourceRow id with
    | none => .error (.SQL .noRows)
    | some src => .ok src

/-- Modelled from the spec: `save_file` (`Connection::backup`) durably
copies the live contents to `path` without mutating the live store, and —
because the schema script (not under `src/`) is idempotent per the spec —
re-opening the written file yields exactly the copied contents. -/
def save_file (fs : FileSys) (conn : Store) (path : String)
    (env : EnvOutcome) : Except Err FileSys :=
  match env with
  | .fail => .error (.SQL .ioFailure)
  | .ok => .ok (fun p => if p = path then some conn else fs p)

/-- The outcome of one iteration of `State::listen`'s receive loop:
either the thread panics (an `unwrap()` on an `Err`), or the loop continues
with a new state, having sent `sent` notifications and warn-logged
`logged` errors. -/
inductive StepResult where
  | panicked
  | next (s : State) (sent : List UiMsg) (logged : List Err)
  deriving DecidableEq

/-- One iteration of the receive loop in `State::listen`, processing a
single dequeued command. -/
def State.step (fs : FileSys) (env : EnvOutcome) (s : State) (msg : Msg) :
    StepResult :=
  match msg with
  | .Open path =>
    match State.openPath fs s path with
    | .ok s1 => .next { s1 with open_file := some path } [.SetFilename path] []
    | .error _ => .next s [] []
  | .NewItem =>
    match s.unique_name env with
    | .error _ => .panicked
    | .ok name =>
      let description : Option String := some ("Mostly harmless.")
      match s.insert_new env name description with
      | .error _ => .panicked
      | .ok r =>
        .next r.1
          [.NewItem { id := r.2, name := name, description := description,
                      thumbnail := () }] []
  | .StoreCode text =>
    match s.update_source env text with
    | .ok s1 => .next s1 [] []
    | .error e => .next s [] [e]
  | .SetActiveObject obj =>
    match s.select_by_name env obj with
    | .ok s1 => .next s1 [] []
    | .error e => .next s [] [e]
  | .SetDescription text =>
    match s.update_description env text with
    | .ok s1 => .next s1 [] []
    | .error e => .next s [] [e]
  | .SetName name =>
    match s.update_name env name with
    | .ok s1 => .next s1 [] []
    | .error e => .next s [] [e]
  | .SelectItem id =>
    let s1 := { s with active_object := some id }
    let source :=
      match s1.read_source env id with
      | .ok src => src
      | .error _ => ""
    .next s1 [.SetSource source] []

/-! ### Concrete fixtures and the store invariant -/

/-- The autoincrement invariant sqlite maintains on the live store: every
existing rowid is below the next rowid to be assigned. -/
def Store.WF (db : Store) : Prop :=
  ∀ o ∈ db.objects, o.id < db.nextId

/-- A file system on which every load fails. -/
def fsNone : FileSys := fun _ => none

/-- A file system holding an empty, schema-initialized store at path `p`. -/
def fsP : FileSys := fun p => if p = "p" then some emptyStore else none

/-- A state whose cursor points at id 1 while its store is empty. -/
def staleCursorState : State :=
  { open_file := none, conn := emptyStore, active_object := some 1 }

/-- A store already holding an object named `a`. -/
def dupStore : Store :=
  { objects := [{ id := 1, name := "a", description := some ("x"), source := "" }],
    nextId := 2 }

/-- `dupStore` after inserting a second object also named `a`. -/
def dupStoreInserted : Store := (dupStore.insertObj ("a") (some ("y"))).1

/-- The file system after backing `dupStoreInserted` up to path `p`. -/
def dupFs : FileSys := fun p => if p = "p" then some dupStoreInserted else none

/-- The actor state after the first `NewItem` on a fresh store. -/
def scenarioState1 : State :=
  { open_file := none,
    conn := { objects := [{ id := 1, name := "New Object (1)",
                            description := some ("Mostly harmless."), source := "" }],
              nextId := 2 },
    active_object := none }

/-- The actor state after the second `NewItem`. -/
def scenarioState2 : State :=
  { open_file := none,
    conn := { objects := [{ id := 1, name := "New Object (1)",
                            description := some ("Mostly harmless."), source := "" },
                          { id := 2, name := "New Object (2)",
                            description := some ("Mostly harmless."), source := "" }],
              nextId := 3 },
    active_object := none }

/-- The state reached by opening path `p` of `fsP` from `staleCursorState`. -/
def openedState : State :=
  { open_file := some ("p"), conn := emptyStore, active_object := some 1 }

/-! ### Helper lemmas -/

lemma map_noMatch (l : List Obj) (id : Int) (g : Obj → Obj)
    (h : ∀ o ∈ l, o.id ≠ id) :
    (l.map fun o => if o.id = id then g o else o) = l := by
  induction l with
  | nil => rfl
  | cons a t ih =>
    simp only [List.map_cons]
    rw [if_neg (h a (List.mem_cons_self a t)),
      ih (fun o ho => h o (List.mem_cons_of_mem a ho))]

lemma updateNameRow_noMatch (db : Store) (id : Int) (v : String)
    (h : ∀ o ∈ db.objects, o.id ≠ id) : db.updateNameRow id v = db := by
  obtain ⟨obs, nid⟩ := db
  simp only [Store.updateNameRow]
  rw [map_noMatch obs id _ h]

lemma updateSourceRow_noMatch (db : Store) (id : Int) (v : String)
    (h : ∀ o ∈ db.objects, o.id ≠ id) : db.updateSourceRow id v = db := by
  obtain ⟨obs, nid⟩ := db
  simp only [Store.updateSourceRow]
  rw [map_noMatch obs id _ h]

lemma updateDescriptionRow_noMatch (db : Store) (id : Int) (v : String)
    (h : ∀ o ∈ db.objects, o.id ≠ id) : db.updateDescriptionRow id v = db := by
  obtain ⟨obs, nid⟩ := db
  simp only [Store.updateDescriptionRow]
  rw [map_noMatch obs id _ h]

lemma find_append_of_none {α : Type} (p : α → Bool) (l1 l2 : List α)
    (h : ∀ x ∈ l1, p x = false) : (l1 ++ l2).find? p = l2.find? p := by
  induction l1 with
  | nil => rfl
  | cons a t ih =>
    rw [List.cons_append, List.find?_cons, h a (List.mem_cons_self a t)]
    exact ih (fun x hx => h x (List.mem_cons_of_mem a hx))

/-- In every continuing step, either no notification was sent or nothing
was logged: the arms that log (`StoreCode`, `SetActiveObject`,
`SetDescription`, `SetName`) never send, and the arms that send (`Open`,
`NewItem`, `SelectItem`) never log. -/
lemma step_sent_nil_or_logged_nil (fs : FileSys) (env : EnvOutcome)
    (s : State) (msg : Msg) (s1 : State) (sent : List UiMsg)
    (logged : List Err)
    (hstep : State.step fs env s msg = .next s1 sent logged) :
    sent = [] ∨ logged = [] := by
  cases msg with
  | Open path =>
    right
    cases hfs : fs path <;> simp [State.step, State.openPath, hfs] at hstep <;>
      exact hstep.2.2
  | NewItem =>
    right
    cases env with
    | fail => simp [State.step, State.unique_name] at hstep
    | ok =>
      simp [State.step, State.unique_name, State.insert_new] at hstep
      exact hstep.2.2
  | StoreCode text =>
    left
    cases hr : s.update_source env text <;> simp [State.step, hr] at hstep <;>
      exact hstep.2.1
  | SetActiveObject obj =>
    left
    cases hr : s.select_by_name env obj <;> simp [State.step, hr] at hstep <;>
      exact hstep.2.1
  | SetDescription text =>
    left
    cases hr : s.update_description env text <;> simp [State.step, hr] at hstep <;>
      exact hstep.2.1
  | SetName name =>
    left
    cases hr : s.update_name env name <;> simp [State.step, hr] at hstep <;>
      exact hstep.2.1
  | SelectItem id =>
    right
    simp [State.step] at hstep
    exact hstep.2.2

/-! ### The claims -/

/-- C1 (counterexample): dequeuing `NewItem` when the store query inside
`unique_name` fails with an SQL error panics the actor thread — the
`unwrap()` in the `NewItem` arm of `State::listen` propagates the error —
refuting that every command catches every store-level outcome. -/
theorem newItem_store_error_panics :
    State.step fsNone .fail State.new .NewItem = .panicked := rfl

/-- C1 (amended): for every dequeued command other than `NewItem`, under
every outcome of the underlying store operation, and for `NewItem` when its
store operations succeed, processing never panics and never propagates an
error out of the loop: the step always continues to the next message with
any failure caught (and, outside the `Open` arm, logged). -/
theorem step_no_panic_except_newItem (fs : FileSys) (env : EnvOutcome)
    (s : State) (msg : Msg) (h : msg = .NewItem → env = .ok) :
    ∃ s1 sent logged, State.step fs env s msg = .next s1 sent logged := by
  cases msg with
  | Open path =>
    cases hfs : fs path with
    | none => exact ⟨s, [], [], by simp [State.step, State.openPath, hfs]⟩
    | some db =>
      exact ⟨{ open_file := some path, conn := db,
               active_object := s.active_object }, [.SetFilename path], [],
        by simp [State.step, State.openPath, hfs]⟩
  | NewItem =>
    have henv := h rfl
    subst henv
    exact ⟨_, _, _, rfl⟩
  | StoreCode text =>
    cases hr : s.update_source env text with
    | error e => exact ⟨s, [], [e], by simp [State.step, hr]⟩
    | ok s1 => exact ⟨s1, [], [], by simp [State.step, hr]⟩
  | SetActiveObject obj =>
    cases hr : s.select_by_name env obj with
    | error e => exact ⟨s, [], [e], by simp [State.step, hr]⟩
    | ok s1 => exact ⟨s1, [], [], by simp [State.step, hr]⟩
  | SetDescription text =>
    cases hr : s.update_description env text with
    | error e => exact ⟨s, [], [e], by simp [State.step, hr]⟩
    | ok s1 => exact ⟨s1, [], [], by simp [State.step, hr]⟩
  | SetName name =>
    cases hr : s.update_name env name with
    | error e => exact ⟨s, [], [e], by simp [State.step, hr]⟩
    | ok s1 => exact ⟨s1, [], [], by simp [State.step, hr]⟩
  | SelectItem id =>
    exact ⟨_, _, _, rfl⟩

/-- C1 (witness): a `StoreCode` command whose store operation fails is
caught and the loop continues. -/
theorem step_no_panic_except_newItem_witness :
    ∃ s1 sent logged,
      State.step fsNone .fail State.new (.StoreCode ("x")) =
        .next s1 sent logged :=
  step_no_panic_except_newItem fsNone .fail State.new (.StoreCode ("x"))
    (fun hcon => nomatch hcon)

/-- C2: `unique_name` returns `"New Object (i)"` for the smallest `i ≥ 1`
whose candidate is not among the store's current names; in particular the
returned name is not an existing name, and — the result being a pure
function of the store state — two calls against the same state agree. -/
theorem unique_name_correct (s : State) :
    ∃ i, 1 ≤ i ∧ s.unique_name .ok = .ok (candidateName i) ∧
      candidateName i ∉ s.conn.names ∧
      ∀ j, 1 ≤ j → j < i → candidateName j ∈ s.conn.names := by
  obtain ⟨i, h1, h2, h3, h4⟩ := uniqueName_spec s.conn.names
  exact ⟨i, h1, by simp [State.unique_name, h2], h3, h4⟩

/-- C2 (witness): on the fresh store the returned name is a fresh
candidate. -/
theorem unique_name_correct_witness :
    ∃ i, 1 ≤ i ∧ State.new.unique_name .ok = .ok (candidateName i) ∧
      candidateName i ∉ State.new.conn.names ∧
      ∀ j, 1 ≤ j → j < i → candidateName j ∈ State.new.conn.names :=
  unique_name_correct State.new

/-- C3: with the cursor unset, `StoreCode`, `SetDescription` and `SetName`
leave the entire state — store included — unchanged, warn-log the user
error `No object selected.`, do not crash the actor, and emit no
notification. -/
theorem no_cursor_user_error (fs : FileSys) (env : EnvOutcome) (s : State)
    (text : String) (h : s.active_object = none) :
    State.step fs env s (.StoreCode text) =
      .next s [] [.User ("No object selected.")] ∧
    State.step fs env s (.SetDescription text) =
      .next s [] [.User ("No object selected.")] ∧
    State.step fs env s (.SetName text) =
      .next s [] [.User ("No object selected.")] := by
  refine ⟨?_, ?_, ?_⟩ <;>
    simp [State.step, State.update_source, State.update_description,
      State.update_name, h]

/-- C3 (witness): a `StoreCode` on the fresh, cursorless state. -/
theorem no_cursor_user_error_witness :
    State.step fsNone .ok State.new (.StoreCode ("x")) =
      .next State.new [] [.User ("No object selected.")] :=
  (no_cursor_user_error fsNone .ok State.new ("x") rfl).1

/-- C4: `SelectItem id` always — for every id, store state and SQL outcome —
sets the cursor to `id` and emits exactly one `SetSource` (SourceLoaded)
notification, carrying the object's source when the read succeeds and the
empty string when it fails; and no other command's failure produces a
notification (a logging arm never sends, and a failed `Open` sends
nothing). -/
theorem selectItem_always_notifies (fs : FileSys) (env : EnvOutcome)
    (s : State) :
    (∀ id : Int, ∃ t,
      State.step fs env s (.SelectItem id) =
        .next { s with active_object := some id } [.SetSource t] [] ∧
      (∀ src, env = .ok → s.conn.readSourceRow id = some src → t = src) ∧
      ((env = .fail ∨ s.conn.readSourceRow id = none) → t = "")) ∧
    (∀ msg s1 sent logged, State.step fs env s msg = .next s1 sent logged →
      logged ≠ [] → sent = []) ∧
    (∀ path, fs path = none →
      State.step fs env s (.Open path) = .next s [] []) := by
  refine ⟨fun id => ?_, fun msg s1 sent logged hstep hlog =>
    (step_sent_nil_or_logged_nil fs env s msg s1 sent logged hstep).resolve_right
      hlog,
    fun path hp => by simp [State.step, State.openPath, hp]⟩
  cases env with
  | fail =>
    refine ⟨"", rfl, ?_, fun _ => rfl⟩
    intro src hko
    exact absurd hko (by decide)
  | ok =>
    cases hr : s.conn.readSourceRow id with
    | none =>
      refine ⟨"", by simp [State.step, State.read_source, hr], ?_, fun _ => rfl⟩
      intro src _ hsome
      exact nomatch hsome
    | some src0 =>
      refine ⟨src0, by simp [State.step, State.read_source, hr], ?_, ?_⟩
      · intro src _ hsome
        exact Option.some_injective _ hsome
      · intro hcon
        rcases hcon with hE | hN
        · exact absurd hE (by decide)
        · exact nomatch hN

/-- C4 (witness): selecting id 1 on the fresh empty store emits exactly
`SetSource ""`, and a failing `Open` emits nothing. -/
theorem selectItem_always_notifies_witness :
    State.step fsNone .ok State.new (.SelectItem 1) =
      .next { State.new with active_object := some 1 } [.SetSource ("")] [] ∧
    State.step fsNone .ok State.new (.Open ("p")) = .next State.new [] [] := by
  obtain ⟨ha, hb, hc⟩ := selectItem_always_notifies fsNone .ok State.new
  refine ⟨?_, hc ("p") rfl⟩
  obtain ⟨t, h1, h2, h3⟩ := ha 1
  have ht : t = "" := h3 (Or.inr rfl)
  rw [ht] at h1
  exact h1

/-- C5 (counterexample): with the cursor at id 1 and an empty store, each
targeted update operation succeeds (`conn.execute` returns the number of
affected rows, zero here, not an error) and leaves the store unchanged —
refuting that an update on an id with no existing Object fails. -/
theorem update_missing_id_succeeds :
    State.update_name staleCursorState .ok ("x") = .ok staleCursorState ∧
    State.update_source staleCursorState .ok ("x") = .ok staleCursorState ∧
    State.update_description staleCursorState .ok ("x") = .ok staleCursorState :=
  ⟨rfl, rfl, rfl⟩

/-- C5 (amended): with the cursor set and a healthy SQL layer, the targeted
single-field updates always succeed; when the cursor's id identifies no
existing Object they affect zero rows, leaving the store unchanged, and
when ids are unique they touch at most the one matching row. -/
theorem update_with_cursor_never_fails (s : State) (id : Int) (v : String)
    (hc : s.active_object = some id) :
    (∃ s1, State.update_name s .ok v = .ok s1) ∧
    (∃ s1, State.update_source s .ok v = .ok s1) ∧
    (∃ s1, State.update_description s .ok v = .ok s1) ∧
    ((∀ o ∈ s.conn.objects, o.id ≠ id) →
      State.update_name s .ok v = .ok s ∧
      State.update_source s .ok v = .ok s ∧
      State.update_description s .ok v = .ok s) := by
  refine ⟨⟨{ s with conn := s.conn.updateNameRow id v },
      by simp [State.update_name, hc]⟩,
    ⟨{ s with conn := s.conn.updateSourceRow id v },
      by simp [State.update_source, hc]⟩,
    ⟨{ s with conn := s.conn.updateDescriptionRow id v },
      by simp [State.update_description, hc]⟩, fun h => ⟨?_, ?_, ?_⟩⟩
  · simp [State.update_name, hc, updateNameRow_noMatch _ _ _ h]
    rw [← hc]
  · simp [State.update_source, hc, updateSourceRow_noMatch _ _ _ h]
    rw [← hc]
  · simp [State.update_description, hc, updateDescriptionRow_noMatch _ _ _ h]
    rw [← hc]

/-- C5 (witness): the amended statement at the concrete stale-cursor
state. -/
theorem update_with_cursor_never_fails_witness :
    (∃ s1, State.update_name staleCursorState .ok ("x") = .ok s1) ∧
    (∃ s1, State.update_source staleCursorState .ok ("x") = .ok s1) ∧
    (∃ s1, State.update_description staleCursorState .ok ("x") = .ok s1) ∧
    ((∀ o ∈ staleCursorState.conn.objects, o.id ≠ 1) →
      State.update_name staleCursorState .ok ("x") = .ok staleCursorState ∧
      State.update_source staleCursorState .ok ("x") = .ok staleCursorState ∧
      State.update_description staleCursorState .ok ("x") =
        .ok staleCursorState) :=
  update_with_cursor_never_fails staleCursorState 1 ("x") rfl

/-- C6 (counterexample): when loading fails, the `Open` arm tests
`is_ok()` and silently drops the error: the previous state is preserved and
no notification is emitted, but — contrary to the claim — nothing is logged
(the logged list of the step is empty; `State::open` only logs on
success). -/
theorem open_failure_not_logged :
    State.step fsNone .ok State.new (.Open ("p")) = .next State.new [] [] :=
  rfl

/-- C6 (amended): when processing `Open(path)` and loading fails, the
actor's entire previous state — bound store, open-file marker and cursor —
is preserved and no notification is emitted; the failure is silently
discarded rather than logged. -/
theorem open_failure_preserves_state (fs : FileSys) (env : EnvOutcome)
    (s : State) (path : String) (h : fs path = none) :
    State.step fs env s (.Open path) = .next s [] [] := by
  simp [State.step, State.openPath, h]

/-- C6 (witness): the amended statement on a concrete failing load. -/
theorem open_failure_preserves_state_witness :
    State.step fsNone .fail staleCursorState (.Open ("q")) =
      .next staleCursorState [] [] :=
  open_failure_preserves_state fsNone .fail staleCursorState ("q") rfl

/-- C7: when processing `Open(path)` and loading succeeds, the bound store
is replaced wholesale by the store loaded from `path` (the initialization
script having been applied by `open_file`, idempotently per the spec), the
open-file marker is set to `path`, and exactly one `SetFilename path`
(FilenameChanged) notification is emitted. -/
theorem open_success_replaces_store (fs : FileSys) (env : EnvOutcome)
    (s : State) (path : String) (db : Store) (h : fs path = some db) :
    State.step fs env s (.Open path) =
      .next { open_file := some path, conn := db,
              active_object := s.active_object }
        [.SetFilename path] [] := by
  simp [State.step, State.openPath, h]

/-- C7 (witness): opening path `p` of `fsP` from the stale-cursor state. -/
theorem open_success_replaces_store_witness :
    State.step fsP .ok staleCursorState (.Open ("p")) =
      .next openedState [.SetFilename ("p")] [] := by
  have h := open_success_replaces_store fsP .ok staleCursorState ("p")
    emptyStore (by simp [fsP])
  simpa [openedState, staleCursorState] using h

/-- C8 (counterexample): insert an object named `a` into a store that
already holds an object named `a`: after backing up to a path and
re-opening it, `find_id_by_name` returns the first matching row — id 1,
whose description is `x` — not the freshly inserted id 2 with description
`y`; so the claim fails as stated, without a freshness condition on the
name. -/
theorem roundtrip_duplicate_name :
    (dupStore.insertObj ("a") (some ("y"))).2 = 2 ∧
    save_file fsNone dupStoreInserted ("p") .ok = .ok dupFs ∧
    dupFs ("p") = some dupStoreInserted ∧
    dupStoreInserted.findIdByName ("a") = some 1 ∧
    (dupStoreInserted.objects.find? (fun o => o.id == 1)).map
      (fun o => o.description) = some (some ("x")) ∧
    (1 : Int) ≠ 2 ∧ some ("x") ≠ some ("y") :=
  ⟨rfl, rfl, rfl, rfl, rfl, by decide, by decide⟩

/-- C8 (amended): round-trip persistence holds for an inserted name not
already present in the store (as the unique default naming guarantees) and
a store satisfying the autoincrement invariant: after `insert`, `backup_to`
and `open`, looking the name up yields exactly the inserted id, whose
stored name and description equal the originals and whose source reads as
the empty default. -/
theorem roundtrip_persistence (fs : FileSys) (db : Store) (name : String)
    (descr : Option String) (path : String) (hwf : db.WF)
    (hfresh : name ∉ db.names) :
    ∃ fs1, save_file fs (db.insertObj name descr).1 path .ok = .ok fs1 ∧
      fs1 path = some (db.insertObj name descr).1 ∧
      (db.insertObj name descr).1.findIdByName name =
        some (db.insertObj name descr).2 ∧
      (db.insertObj name descr).1.readSourceRow (db.insertObj name descr).2 =
        some ("") ∧
      ∃ o, (db.insertObj name descr).1.objects.find?
          (fun x => x.id == (db.insertObj name descr).2) = some o ∧
        o.name = name ∧ o.description = descr ∧ o.source = "" := by
  have hnames : ∀ o ∈ db.objects, (o.name == name) = false := by
    intro o ho
    have hne : o.name ≠ name := by
      intro he
      exact hfresh (he ▸ List.mem_map_of_mem (fun x => x.name) ho)
    simpa using hne
  have hids : ∀ o ∈ db.objects, (o.id == db.nextId) = false := by
    intro o ho
    have hlt := hwf o ho
    have hne : o.id ≠ db.nextId := by omega
    simpa using hne
  refine ⟨fun p => if p = path then some (db.insertObj name descr).1 else fs p,
    rfl, by simp, ?_, ?_, ?_⟩
  · simp only [Store.insertObj, Store.findIdByName]
    rw [find_append_of_none _ _ _ hnames]
    simp [List.find?]
  · simp only [Store.insertObj, Store.readSourceRow]
    rw [find_append_of_none _ _ _ hids]
    simp [List.find?]
  · refine ⟨⟨db.nextId, name, descr, ""⟩, ?_, rfl, rfl, rfl⟩
    simp only [Store.insertObj]
    rw [find_append_of_none _ _ _ hids]
    simp [List.find?]

/-- C8 (witness): the amended round trip on the empty store. -/
theorem roundtrip_persistence_witness :
    ∃ fs1,
      save_file fsNone (emptyStore.insertObj ("n") (some ("d"))).1 ("p") .ok =
        .ok fs1 ∧
      fs1 ("p") = some (emptyStore.insertObj ("n") (some ("d"))).1 ∧
      (emptyStore.insertObj ("n") (some ("d"))).1.findIdByName ("n") =
        some (emptyStore.insertObj ("n") (some ("d"))).2 ∧
      (emptyStore.insertObj ("n") (some ("d"))).1.readSourceRow
        (emptyStore.insertObj ("n") (some ("d"))).2 = some ("") ∧
      ∃ o, (emptyStore.insertObj ("n") (some ("d"))).1.objects.find?
          (fun x => x.id == (emptyStore.insertObj ("n") (some ("d"))).2) =
            some o ∧
        o.name = "n" ∧ o.description = some ("d") ∧ o.source = "" :=
  roundtrip_persistence fsNone emptyStore ("n") (some ("d")) ("p")
    (fun o ho => nomatch ho) (fun h => nomatch h)

/-- C9: from the fresh empty store, the first `NewItem` inserts id 1 named
`New Object (1)` with the placeholder description and empty source and
emits the matching ItemCreated notification; the second `NewItem` yields
id 2 and `New Object (2)`; `SelectItem 1` before any `StoreCode` emits
`SourceLoaded("")`. -/
theorem newItem_scenario :
    State.step fsNone .ok State.new .NewItem =
      .next scenarioState1
        [.NewItem { id := 1, name := "New Object (1)",
                    description := some ("Mostly harmless."),
                    thumbnail := () }] [] ∧
    State.step fsNone .ok scenarioState1 .NewItem =
      .next scenarioState2
        [.NewItem { id := 2, name := "New Object (2)",
                    description := some ("Mostly harmless."),
                    thumbnail := () }] [] ∧
    State.step fsNone .ok scenarioState2 (.SelectItem 1) =
      .next { scenarioState2 with active_object := some 1 }
        [.SetSource ("")] [] :=
  ⟨rfl, rfl, rfl⟩

/-- C10: a processed `Open` never modifies the cursor, whether the load
succeeds or fails; after a successful load the cursor may therefore hold an
id absent from the newly loaded store, and a subsequent cursor-targeting
command (here `StoreCode`) operates on that stale id — succeeding as a
zero-row update. -/
theorem open_preserves_cursor (fs : FileSys) (env : EnvOutcome) (s : State)
    (path : String) (s1 : State) (sent : List UiMsg) (logged : List Err)
    (hstep : State.step fs env s (.Open path) = .next s1 sent logged) :
    s1.active_object = s.active_object ∧
    (∀ id text db, s.active_object = some id → fs path = some db →
      (∀ o ∈ db.objects, o.id ≠ id) →
      State.step fs .ok s1 (.StoreCode text) = .next s1 [] []) := by
  cases hfs : fs path with
  | none =>
    simp [State.step, State.openPath, hfs] at hstep
    obtain ⟨h1, -, -⟩ := hstep
    refine ⟨by rw [← h1], ?_⟩
    intro id text db hcur hdb hnone
    exact nomatch hdb
  | some db0 =>
    simp [State.step, State.openPath, hfs] at hstep
    obtain ⟨h1, -, -⟩ := hstep
    refine ⟨by rw [← h1], ?_⟩
    intro id text db hcur hdb hnone
    have hdb0 : db0 = db := Option.some_injective _ hdb
    subst hdb0
    rw [← h1]
    simp [State.step, State.update_source, hcur,
      updateSourceRow_noMatch _ _ _ hnone]

/-- C10 (witness): opening an empty store over a state whose cursor holds
the stale id 1 preserves the cursor, and a following `StoreCode` succeeds
as a no-op on the stale id. -/
theorem open_preserves_cursor_witness :
    openedState.active_object = staleCursorState.active_object ∧
    State.step fsP .ok openedState (.StoreCode ("t")) =
      .next openedState [] [] := by
  obtain ⟨h1, h2⟩ := open_preserves_cursor fsP .ok staleCursorState ("p")
    openedState [.SetFilename ("p")] [] rfl
  exact ⟨h1, h2 1 ("t") emptyStore rfl rfl (fun o ho => nomatch ho)⟩

end Gnartgen
